import Mathlib

/-!
Shallow embedding of the delta-hedging bot core (`src/server.js`) and proofs
of the frozen claims about it.

Numbers are modelled as exact rationals (the JS code performs only
additions, multiplications, divisions and comparisons on its values).
Timestamps (`new Date()`) are modelled as a natural-number clock parameter.
Log messages are modelled by their static prefix; the interpolated numeric
suffixes of the JS template strings are elided, since no claim depends on
them (the one message whose identity matters, `📭 No open positions`, is a
static string in the source).
-/

namespace DeltaBot

/-- A position as consumed by `calculatePortfolioDelta`.  Fields are
`Option`-valued to mirror the JS defaulting `position.size || 0`,
`position.delta || 0`, `position.product?.product_type` defaulting to the empty string,
`position.mark_price || 0`. -/
structure Position where
  size : Option ℚ := none
  delta : Option ℚ := none
  product_type : Option String := none
  mark_price : Option ℚ := none
deriving DecidableEq, Repr

/-- The object returned by `calculatePortfolioDelta`:
`{ deltaPercentage, totalDelta, ethValue }`. -/
structure DeltaInfo where
  deltaPercentage : ℚ
  totalDelta : ℚ
  ethValue : ℚ
deriving DecidableEq, Repr

/-- The per-position delta contribution computed in the body of the
`positions.forEach` loop of `calculatePortfolioDelta` (server.js 185-197). -/
def positionDelta (p : Position) : ℚ :=
  let size := p.size.getD 0
  let delta := p.delta.getD 0
  let productType := p.product_type.getD ""
  if productType = "future" then size
  else if productType = "call_options" ∨ productType = "put_options" then size * delta
  else 0

/-- Translation of `TradingBot.calculatePortfolioDelta` (server.js 181-205): one pass over
the positions accumulating `(totalDelta, ethValue)`, then
`deltaPercentage = ethValue > 0 ? totalDelta / ethValue : 0`. -/
def calculatePortfolioDelta (positions : List Position) : DeltaInfo :=
  let acc := positions.foldl
    (fun (a : ℚ × ℚ) p =>
      (a.1 + positionDelta p, a.2 + |p.size.getD 0| * p.mark_price.getD 0))
    (0, 0)
  let totalDelta := acc.1
  let ethValue := acc.2
  let deltaPercentage := if ethValue > 0 then totalDelta / ethValue else 0
  ⟨deltaPercentage, totalDelta, ethValue⟩

/-- The request body built by `DeltaAPI.placeFutureOrder` (server.js 64-70). -/
structure OrderBody where
  product_id : ℤ
  size : ℚ
  side : String
  order_type : String
  time_in_force : String
deriving DecidableEq, Repr

/-- The POST body built by `DeltaAPI.placeFutureOrder`: product_id, size
taken through Math.abs, side, order_type market_order and time_in_force
ioc. -/
def placeFutureOrderBody (productId : ℤ) (size : ℚ) (side : String) : OrderBody :=
  { product_id := productId
    size := |size|
    side := side
    order_type := "market_order"
    time_in_force := "ioc" }

/-- An entry of `this.deltaHistory` (server.js 153-159). -/
structure HistEntry where
  deltaPercentage : ℚ
  totalDelta : ℚ
  ethValue : ℚ
  positionsCount : ℕ
  createdAt : ℕ
deriving DecidableEq, Repr

/-- An entry of `this.trades` (server.js 232-238); `orderSuccess` stands for
the stored `orderResponse` (only placed on success, so it is `true`). -/
structure Trade where
  side : String
  hedgeSize : ℚ
  currentDelta : ℚ
  orderSuccess : Bool
  createdAt : ℕ
deriving DecidableEq, Repr

/-- An entry of `this.logs` (server.js 258-262). -/
structure LogEntry where
  level : String
  message : String
  createdAt : ℕ
deriving DecidableEq, Repr

/-- The `settings` object of the bot (server.js 102-107). -/
structure Settings where
  deltaThreshold : ℚ
  checkInterval : ℤ
  minHedgeSize : ℚ
  ethFutureProductId : ℤ
deriving DecidableEq, Repr

/-- The mutable fields of `TradingBot` touched by the cycle pipeline. -/
structure BotState where
  status : String
  currentDelta : ℚ
  ethValue : ℚ
  totalTrades : ℕ
  lastCheck : Option ℕ
  settings : Settings
  deltaHistory : List HistEntry
  trades : List Trade
  logs : List LogEntry
deriving DecidableEq, Repr

/-- Default settings from the constructor env fallbacks
(0.15, 60000, 0.01, 27). -/
def initSettings : Settings :=
  { deltaThreshold := 15/100, checkInterval := 60000
    minHedgeSize := 1/100, ethFutureProductId := 27 }

/-- The initial bot state set up by the constructor (server.js 96-112). -/
def initState : BotState :=
  { status := "stopped", currentDelta := 0, ethValue := 0, totalTrades := 0
    lastCheck := none, settings := initSettings
    deltaHistory := [], trades := [], logs := [] }

/-- Append discipline of `deltaHistory` (push, then shift when over 100)
(server.js 153-160): append at the tail, drop the head past capacity. -/
def pushHistory (h : List HistEntry) (e : HistEntry) : List HistEntry :=
  let h2 := h ++ [e]
  if h2.length > 100 then h2.tail else h2

/-- Append discipline of `trades` (unshift, then pop when over 50)
(server.js 232-239): prepend at the head, drop the tail past capacity. -/
def pushTrade (ts : List Trade) (t : Trade) : List Trade :=
  let l := t :: ts
  if l.length > 50 then l.dropLast else l

/-- Append discipline of `logs` (unshift, then pop when over 200; server.js 266-267). -/
def pushLog (ls : List LogEntry) (e : LogEntry) : List LogEntry :=
  let l := e :: ls
  if l.length > 200 then l.dropLast else l

/-- Translation of `TradingBot.getRecentTrades` (server.js 289-291): take the first `limit` trades. -/
def getRecentTrades (st : BotState) (limit : ℕ) : List Trade :=
  st.trades.take limit

/-- Socket events emitted by the bot: the deltaUpdate emit, the
tradeExecuted emit, and the log emit inside `TradingBot.log`. -/
inductive Event where
  | deltaUpdate (delta : ℚ) (ethValue : ℚ) (lastCheck : ℕ)
  | tradeExecuted (side : String) (size : ℚ) (deltaBefore : ℚ) (totalTrades : ℕ)
  | log (level : String) (message : String) (time : ℕ)
deriving DecidableEq, Repr

/-- The state mutation of `TradingBot.log` (server.js 257-270): unshift the
entry into the `logs` buffer capped at 200.  The accompanying log emit
is accounted for in the event lists of the callers below. -/
def logState (st : BotState) (level msg : String) (now : ℕ) : BotState :=
  { st with logs := pushLog st.logs ⟨level, msg, now⟩ }

/-- The event emitted by `TradingBot.log`. -/
def logEvt (level msg : String) (now : ℕ) : Event :=
  .log level msg now

def checkingMsg : String := "🔍 Checking positions..."
def noPositionsMsg : String := "📭 No open positions"
def deltaStatsMsg : String := "📊 Delta:"
def withinRangeMsg : String := "✅ Delta within range"
def tooSmallMsg : String := "⏭️ Hedge size too small"
def breachedMsg : String := "⚠️ Delta threshold breached!"
def executingMsg : String := "🔄 Executing hedge:"
def hedgeSuccessMsg : String := "✅ Hedge successful!"
def hedgeFailedMsg : String := "❌ Hedge failed!"

/-- Translation of `TradingBot.executeHedge` (server.js 207-255).
`orderSuccess` models the outcome of the `placeFutureOrder` network call
(`order.success`).  Returns the new state, the events emitted, and the list
of order bodies actually POSTed to the exchange. -/
def executeHedge (st : BotState) (currentDelta : ℚ) (orderSuccess : Bool) (now : ℕ) :
    BotState × List Event × List OrderBody :=
  let hedgeSize := -currentDelta
  if |hedgeSize| < st.settings.minHedgeSize then
    (logState st "INFO" tooSmallMsg now, [logEvt "INFO" tooSmallMsg now], [])
  else
    let side := if hedgeSize > 0 then "buy" else "sell"
    let st1 := logState (logState st "WARNING" breachedMsg now) "INFO" executingMsg now
    let body := placeFutureOrderBody st.settings.ethFutureProductId |hedgeSize| side
    if orderSuccess then
      let st2 := logState st1 "INFO" hedgeSuccessMsg now
      let st3 := { st2 with
        totalTrades := st2.totalTrades + 1
        trades := pushTrade st2.trades ⟨side, hedgeSize, currentDelta, true, now⟩ }
      (st3,
        [logEvt "WARNING" breachedMsg now, logEvt "INFO" executingMsg now,
          logEvt "INFO" hedgeSuccessMsg now,
          .tradeExecuted side |hedgeSize| currentDelta st3.totalTrades],
        [body])
    else
      (logState st1 "ERROR" hedgeFailedMsg now,
        [logEvt "WARNING" breachedMsg now, logEvt "INFO" executingMsg now,
          logEvt "ERROR" hedgeFailedMsg now],
        [body])

/-- Translation of `TradingBot.checkAndHedge` (server.js 136-179).  Here `fetched` models the
result of `this.api.getPositions()`: `none` for a fetch failure (the JS
method returns `null` after catching the error), `some positions`
otherwise.  The guard `!positions || positions.length === 0` collapses both
`none` and the empty list into the same early return. -/
def checkAndHedge (st : BotState) (fetched : Option (List Position))
    (orderSuccess : Bool) (now : ℕ) : BotState × List Event × List OrderBody :=
  let st0 := logState st "INFO" checkingMsg now
  let e0 := [logEvt "INFO" checkingMsg now]
  match fetched with
  | none =>
      (logState st0 "INFO" noPositionsMsg now, e0 ++ [logEvt "INFO" noPositionsMsg now], [])
  | some positions =>
      if positions.length = 0 then
        (logState st0 "INFO" noPositionsMsg now, e0 ++ [logEvt "INFO" noPositionsMsg now], [])
      else
        let deltaInfo := calculatePortfolioDelta positions
        let st1 := { st0 with
          currentDelta := deltaInfo.deltaPercentage
          ethValue := deltaInfo.ethValue
          lastCheck := some now }
        let st2 := { st1 with
          deltaHistory := pushHistory st1.deltaHistory
            ⟨deltaInfo.deltaPercentage, deltaInfo.totalDelta, deltaInfo.ethValue,
              positions.length, now⟩ }
        let st3 := logState st2 "INFO" deltaStatsMsg now
        let e1 := e0 ++ [logEvt "INFO" deltaStatsMsg now,
          .deltaUpdate deltaInfo.deltaPercentage deltaInfo.ethValue now]
        if |st3.currentDelta| ≥ st3.settings.deltaThreshold then
          let r := executeHedge st3 deltaInfo.totalDelta orderSuccess now
          (r.1, e1 ++ r.2.1, r.2.2)
        else
          (logState st3 "INFO" withinRangeMsg now,
            e1 ++ [logEvt "INFO" withinRangeMsg now], [])

/-- The partial settings object POSTed to `/api/settings`; a field is `none`
when absent from the request body. -/
structure NewSettings where
  deltaThreshold : Option ℚ := none
  checkInterval : Option ℤ := none
  minHedgeSize : Option ℚ := none
deriving DecidableEq, Repr

/-- JS truthiness of a possibly-absent number: `undefined` and `0` are falsy,
every other (rational) number is truthy. -/
def numTruthy (o : Option ℚ) : Bool :=
  match o with
  | none => false
  | some v => v != 0

/-- JS truthiness of a possibly-absent integer. -/
def intTruthy (o : Option ℤ) : Bool :=
  match o with
  | none => false
  | some v => v != 0

/-- Translation of `TradingBot.updateSettings` (server.js 272-287): each field
is applied only when truthy; a truthy `checkInterval` while running triggers
`stop(); start()` (the returned Bool records whether that restart happened).
The trailing Settings-updated log call is applied to the state. -/
def updateSettings (st : BotState) (ns : NewSettings) (now : ℕ) : BotState × Bool :=
  let s0 := st.settings
  let s1 := if numTruthy ns.deltaThreshold
    then { s0 with deltaThreshold := ns.deltaThreshold.getD 0 } else s0
  let restarted := intTruthy ns.checkInterval && st.status == "running"
  let s2 := if intTruthy ns.checkInterval
    then { s1 with checkInterval := ns.checkInterval.getD 0 } else s1
  let s3 := if numTruthy ns.minHedgeSize
    then { s2 with minHedgeSize := ns.minHedgeSize.getD 0 } else s2
  (logState { st with settings := s3 } "INFO" "⚙️ Settings updated" now, restarted)

/-- Is this event a `deltaUpdate`? -/
def isDeltaUpdate (e : Event) : Bool :=
  match e with
  | .deltaUpdate _ _ _ => true
  | _ => false

/-! ## Theorems about the claims -/

@[simp] lemma logState_settings (st : BotState) (l m : String) (n : ℕ) :
    (logState st l m n).settings = st.settings := rfl

@[simp] lemma logState_currentDelta (st : BotState) (l m : String) (n : ℕ) :
    (logState st l m n).currentDelta = st.currentDelta := rfl

@[simp] lemma logState_totalTrades (st : BotState) (l m : String) (n : ℕ) :
    (logState st l m n).totalTrades = st.totalTrades := rfl

@[simp] lemma logState_trades (st : BotState) (l m : String) (n : ℕ) :
    (logState st l m n).trades = st.trades := rfl

/-- The newest log entry is always at the head of the capped log buffer. -/
lemma head_pushLog (ls : List LogEntry) (e : LogEntry) :
    (pushLog ls e).head? = some e := by
  simp only [pushLog]
  split_ifs with h
  · cases ls with
    | nil => simp at h
    | cons a t => simp [List.dropLast]
  · rfl

/-- The first projection of the accumulator of the fold inside
`calculatePortfolioDelta` is the running sum of the per-position delta
contributions. -/
lemma calc_fold_fst (ps : List Position) (a : ℚ × ℚ) :
    (ps.foldl
      (fun (a : ℚ × ℚ) p =>
        (a.1 + positionDelta p, a.2 + |p.size.getD 0| * p.mark_price.getD 0)) a).1
      = a.1 + (ps.map positionDelta).sum := by
  induction ps generalizing a with
  | nil => simp
  | cons p ps ih => simp [ih, add_assoc]

/-- C2: on the position list [future size 2 markPrice 100,
call option size 1 delta 0.5 markPrice 200] the exposure calculation
returns totalDelta = 2.5, notional (`ethValue`) = 400 and
deltaPercentage = 0.00625 = 1/160; and in general `totalDelta` is the sum
of the per-position contributions (size for futures, size·delta for call
and put options, 0 otherwise — which is the definition of
`positionDelta`).  The abstract spec product types `call_option` /
`put_option` denote the exchange wire values `call_options` /
`put_options` matched by the code. -/
theorem C2_exposure_example :
    calculatePortfolioDelta
      [{ size := some 2, product_type := some "future", mark_price := some 100 },
        { size := some 1, delta := some (1/2), product_type := some "call_options",
          mark_price := some 200 }] =
      ⟨1/160, 5/2, 400⟩ ∧
    ∀ ps : List Position,
      (calculatePortfolioDelta ps).totalDelta = (ps.map positionDelta).sum := by
  constructor
  · norm_num [calculatePortfolioDelta, positionDelta, List.foldl,
      show ("call_options" : String) ≠ "future" from by decide]
  · intro ps
    simp [calculatePortfolioDelta, calc_fold_fst]

/-- C3 fails as stated: the body built by `placeFutureOrder` carries
`time_in_force: "ioc"`, not `"immediate_or_cancel"`, so for product id 27,
size 2, side "buy" the claimed body differs from the actual one. -/
theorem C3_counterexample :
    placeFutureOrderBody 27 2 "buy" ≠
      { product_id := 27, size := 2, side := "buy", order_type := "market_order",
        time_in_force := "immediate_or_cancel" } := by
  decide

/-- C3 (amended): for every order submission with product id p, size s and
side d, the POST body is exactly
`{product_id: p, size: |s|, side: d, order_type: "market_order",
time_in_force: "ioc"}` — the immediate-or-cancel instruction is spelled
`"ioc"` on the wire. -/
theorem C3_order_body :
    ∀ (p : ℤ) (s : ℚ) (d : String),
      placeFutureOrderBody p s d =
        { product_id := p, size := |s|, side := d, order_type := "market_order",
          time_in_force := "ioc" } :=
  fun _ _ _ => rfl

/-- C6: `calculatePortfolioDelta []` returns all-zero exposure, and whenever
the computed notional (`ethValue`) is 0 the reported `deltaPercentage` is 0:
the division `totalDelta / ethValue` is only taken when `ethValue > 0`. -/
theorem C6_no_div_by_zero :
    calculatePortfolioDelta [] = ⟨0, 0, 0⟩ ∧
    ∀ ps : List Position, (calculatePortfolioDelta ps).ethValue = 0 →
      (calculatePortfolioDelta ps).deltaPercentage = 0 := by
  constructor
  · decide
  · intro ps h
    simp only [calculatePortfolioDelta] at h ⊢
    rw [h]
    norm_num

/-- Witness for C6 at the concrete empty position list. -/
theorem C6_witness :
    (calculatePortfolioDelta []).ethValue = 0 ∧
      (calculatePortfolioDelta []).deltaPercentage = 0 :=
  ⟨by decide, C6_no_div_by_zero.2 [] (by decide)⟩

/-- C10: a provided-but-zero field of the settings update is falsy in JS, so
`updateSettings` leaves that field unchanged; in particular a zero
`checkInterval` causes no timer restart. -/
theorem C10_zero_settings_ignored :
    ∀ (st : BotState) (ns : NewSettings) (now : ℕ),
      (ns.deltaThreshold = some 0 →
        ((updateSettings st ns now).1).settings.deltaThreshold
          = st.settings.deltaThreshold) ∧
      (ns.checkInterval = some 0 →
        ((updateSettings st ns now).1).settings.checkInterval
            = st.settings.checkInterval ∧
          (updateSettings st ns now).2 = false) ∧
      (ns.minHedgeSize = some 0 →
        ((updateSettings st ns now).1).settings.minHedgeSize
          = st.settings.minHedgeSize) := by
  intro st ns now
  refine ⟨fun h => ?_, fun h => ⟨?_, ?_⟩, fun h => ?_⟩ <;>
    simp [updateSettings, logState, numTruthy, intTruthy, h] <;>
    split_ifs <;> simp

/-- Folding history appends from any buffer already within capacity keeps
exactly the last 100 appended entries, in order. -/
lemma foldl_pushHistory (xs : List HistEntry) :
    ∀ h : List HistEntry, h.length ≤ 100 →
      List.foldl pushHistory h xs = (h ++ xs).drop ((h ++ xs).length - 100) := by
  induction xs with
  | nil =>
    intro h hh
    simp [Nat.sub_eq_zero_of_le hh]
  | cons x xs ih =>
    intro h hh
    simp only [List.foldl_cons]
    by_cases hc : (h ++ [x]).length > 100
    · have hl : h.length = 100 := by
        simp only [List.length_append, List.length_singleton] at hc
        omega
      have hne : h ≠ [] := by
        intro e
        rw [e] at hl
        simp at hl
      obtain ⟨hd, t, rfl⟩ := List.exists_cons_of_ne_nil hne
      have ht : t.length = 99 := by simpa using hl
      rw [show pushHistory (hd :: t) x = t ++ [x] from by
        simp only [pushHistory]
        rw [if_pos hc, List.cons_append, List.tail_cons]]
      rw [ih (t ++ [x]) (by
        simp only [List.length_append, List.length_singleton, ht]
        omega)]
      rw [show (t ++ [x]) ++ xs = t ++ x :: xs from by simp]
      rw [show (hd :: t) ++ x :: xs = hd :: (t ++ x :: xs) from by simp]
      rw [show (t ++ x :: xs).length - 100 = xs.length from by
        simp only [List.length_append, List.length_cons, ht]
        omega]
      rw [show (hd :: (t ++ x :: xs)).length - 100 = xs.length + 1 from by
        simp only [List.length_cons, List.length_append, ht]
        omega]
      rw [List.drop_succ_cons]
    · rw [show pushHistory h x = h ++ [x] from by
        simp only [pushHistory]
        rw [if_neg hc]]
      rw [ih (h ++ [x]) (by
        simp only [List.length_append, List.length_singleton] at hc ⊢
        omega)]
      simp [List.append_assoc]

/-- C8: under any sequence of appends starting from the empty history
buffer, the buffer is exactly the last (at most 100) appended entries in
insertion order: it never exceeds 100 entries, eviction removes strictly
the oldest entry first, and the newest entry is at the tail. -/
theorem C8_history_buffer :
    ∀ xs : List HistEntry,
      (List.foldl pushHistory [] xs).length ≤ 100 ∧
      List.foldl pushHistory [] xs = xs.drop (xs.length - 100) := by
  intro xs
  have h := foldl_pushHistory xs [] (by simp)
  simp only [List.nil_append] at h
  refine ⟨?_, h⟩
  rw [h, List.length_drop]
  omega

/-- Folding trade prepends from any buffer within capacity keeps exactly
the 50 most recent trades, newest first. -/
lemma foldl_pushTrade (xs : List Trade) :
    ∀ ts : List Trade, ts.length ≤ 50 →
      List.foldl pushTrade ts xs = (xs.reverse ++ ts).take 50 := by
  induction xs with
  | nil =>
    intro ts h
    simp [List.take_of_length_le h]
  | cons x xs ih =>
    intro ts h
    simp only [List.foldl_cons]
    by_cases hc : (x :: ts).length > 50
    · have hl : ts.length = 50 := by
        simp only [List.length_cons] at hc
        omega
      rw [show pushTrade ts x = (x :: ts).dropLast from by
        simp only [pushTrade]
        rw [if_pos hc]]
      rw [ih _ (by
        simp only [List.length_dropLast, List.length_cons, hl]
        omega)]
      rw [List.reverse_cons, List.append_assoc, List.singleton_append]
      rw [List.take_append_eq_append_take, List.take_append_eq_append_take]
      congr 1
      rw [List.dropLast_eq_take, List.take_take]
      congr 1
      simp only [List.length_cons, hl]
      omega
    · rw [show pushTrade ts x = x :: ts from by
        simp only [pushTrade]
        rw [if_neg hc]]
      rw [ih _ (by simp only [List.length_cons] at hc ⊢; omega)]
      rw [List.reverse_cons, List.append_assoc, List.singleton_append]

/-- Taking 50 elements preserves the head. -/
lemma head_take_fifty (l : List Trade) : (l.take 50).head? = l.head? := by
  cases l <;> rfl

/-- C9: under any sequence of appends starting from the empty trade buffer,
the buffer holds the (at most 50) most recent trades newest-first: it never
exceeds 50 entries, the most recently appended trade is its head (also the
first element returned by `getRecentTrades`), and eviction removes the
oldest entry from the tail. -/
theorem C9_trade_buffer :
    ∀ xs : List Trade,
      (List.foldl pushTrade [] xs).length ≤ 50 ∧
      List.foldl pushTrade [] xs = xs.reverse.take 50 ∧
      (List.foldl pushTrade [] xs).head? = xs.getLast? ∧
      (getRecentTrades { initState with trades := List.foldl pushTrade [] xs } 50).head?
        = xs.getLast? := by
  intro xs
  have h := foldl_pushTrade xs [] (by simp)
  simp only [List.append_nil] at h
  have hhead : (List.foldl pushTrade [] xs).head? = xs.getLast? := by
    rw [h, head_take_fifty, List.head?_reverse]
  refine ⟨?_, h, hhead, ?_⟩
  · rw [h, List.length_take]
    omega
  · rw [getRecentTrades, head_take_fifty, hhead]

/-- C4 is right about the intended design but the code violates it: a fetch
failure (`getPositions()` returned null) runs through the very same
`!positions || positions.length === 0` early return as a successful empty
fetch, producing the identical event trace and in particular the same
`📭 No open positions` log message. -/
theorem C4_fetch_failure_conflated :
    (checkAndHedge initState none true 0).2.1
        = (checkAndHedge initState (some []) true 0).2.1 ∧
      Event.log "INFO" noPositionsMsg 0 ∈ (checkAndHedge initState none true 0).2.1 := by
  constructor
  · rfl
  · simp [checkAndHedge, logEvt]

/-- C5: for a hedge attempt that reaches order submission, a Trade is
recorded and `totalTrades` incremented iff the order returned success; on
failure the trade buffer and counter are left unchanged and an ERROR log
entry is produced (it is emitted as an event and sits at the head of the
log buffer). -/
theorem C5_failed_order (st : BotState) (currentDelta : ℚ) (suc : Bool) (now : ℕ)
    (h : ¬ |(-currentDelta)| < st.settings.minHedgeSize) :
    (executeHedge st currentDelta suc now).1.trades =
        (if suc then
          pushTrade st.trades
            ⟨(if -currentDelta > 0 then "buy" else "sell"), -currentDelta,
              currentDelta, true, now⟩
        else st.trades) ∧
      (executeHedge st currentDelta suc now).1.totalTrades =
        (if suc then st.totalTrades + 1 else st.totalTrades) ∧
      (suc = false →
        logEvt "ERROR" hedgeFailedMsg now ∈ (executeHedge st currentDelta suc now).2.1 ∧
        (executeHedge st currentDelta suc now).1.logs.head? =
          some ⟨"ERROR", hedgeFailedMsg, now⟩) := by
  simp only [executeHedge]
  rw [if_neg h]
  cases suc with
  | false => simp [logState, head_pushLog, logEvt]
  | true => simp

/-- Witness for C5: on the initial state with delta 1, a failed order leaves
trades and the counter untouched and logs the failure. -/
theorem C5_witness :
    (executeHedge initState 1 false 0).1.trades = initState.trades ∧
      (executeHedge initState 1 false 0).1.totalTrades = initState.totalTrades ∧
      logEvt "ERROR" hedgeFailedMsg 0 ∈ (executeHedge initState 1 false 0).2.1 ∧
      (executeHedge initState 1 false 0).1.logs.head? =
        some ⟨"ERROR", hedgeFailedMsg, 0⟩ := by
  have h := C5_failed_order initState 1 false 0
    (by norm_num [initState, initSettings])
  refine ⟨?_, ?_, (h.2.2 rfl).1, (h.2.2 rfl).2⟩
  · simpa using h.1
  · simpa using h.2.1

/-- C1: in a cycle with a non-empty fetched position list, an order is
POSTed to the exchange iff `|deltaPercentage| ≥ deltaThreshold` and
`|hedgeSize| ≥ minHedgeSize` with `hedgeSize = -totalDelta`; when either
threshold blocks the hedge, no order call is made and the corresponding
within-range / too-small log entry is emitted instead. -/
theorem C1_hedge_iff (st : BotState) (ps : List Position) (suc : Bool) (now : ℕ)
    (hne : ps ≠ []) :
    ((checkAndHedge st (some ps) suc now).2.2 ≠ [] ↔
      |(calculatePortfolioDelta ps).deltaPercentage| ≥ st.settings.deltaThreshold ∧
        |-(calculatePortfolioDelta ps).totalDelta| ≥ st.settings.minHedgeSize) ∧
    ((checkAndHedge st (some ps) suc now).2.2 = [] →
      logEvt "INFO" withinRangeMsg now ∈ (checkAndHedge st (some ps) suc now).2.1 ∨
        logEvt "INFO" tooSmallMsg now ∈ (checkAndHedge st (some ps) suc now).2.1) := by
  have hlen : ¬ (ps.length = 0) := fun h => hne (List.length_eq_zero.mp h)
  simp only [checkAndHedge, executeHedge, logState_settings, logState_currentDelta]
  rw [if_neg hlen]
  split_ifs with h1 h2 h3 <;>
    simp_all [ge_iff_le, not_lt, abs_neg, logEvt]

/-- Witness for C1: with the default threshold 0.15 and a single short
future position of size -2 at mark price 5, `deltaPercentage = -0.2`
breaches the threshold, `|hedgeSize| = 2 ≥ 0.01`, and exactly the hedge
order is submitted. -/
theorem C1_witness :
    ([({ size := some (-2), product_type := some "future",
          mark_price := some 5 } : Position)] ≠ ([] : List Position)) ∧
    (checkAndHedge initState
        (some [{ size := some (-2), product_type := some "future", mark_price := some 5 }])
        true 0).2.2 ≠ [] := by
  constructor
  · decide
  · refine (C1_hedge_iff initState
      [{ size := some (-2), product_type := some "future", mark_price := some 5 }]
      true 0 (by decide)).1.mpr ?_
    have e1 : |(1:ℚ)/5| = 1/5 := abs_of_pos (by norm_num)
    have e2 : |(2:ℚ)| = 2 := abs_of_pos (by norm_num)
    constructor
    · norm_num [calculatePortfolioDelta, positionDelta, List.foldl, initState,
        initSettings, e1, e2]
    · norm_num [calculatePortfolioDelta, positionDelta, List.foldl, initState,
        initSettings, e1, e2]

/-- C7 fails as stated: a cycle whose position fetch fails emits zero
`deltaUpdate` events, not exactly one. -/
theorem C7_counterexample :
    ((checkAndHedge initState none true 0).2.1.filter isDeltaUpdate).length = 0 ∧
      ((checkAndHedge initState none true 0).2.1.filter isDeltaUpdate).length ≠ 1 := by
  constructor <;> decide

/-- C7 (amended): a cycle emits exactly one `deltaUpdate` event — carrying
the `deltaPercentage`, notional (`ethValue`) and timestamp of that cycle — iff
the position fetch succeeded with a non-empty list; a failed fetch or an
empty position list emits no `deltaUpdate`. -/
theorem C7_delta_update_events (st : BotState) (fetched : Option (List Position))
    (suc : Bool) (now : ℕ) :
    (checkAndHedge st fetched suc now).2.1.filter isDeltaUpdate =
      (match fetched with
        | none => []
        | some ps =>
            if ps.length = 0 then []
            else [Event.deltaUpdate (calculatePortfolioDelta ps).deltaPercentage
                    (calculatePortfolioDelta ps).ethValue now]) := by
  match fetched with
  | none => rfl
  | some ps =>
      by_cases hlen : ps.length = 0
      · simp only [checkAndHedge, hlen, if_true]
        rfl
      · simp only [checkAndHedge, executeHedge, logState_currentDelta, logState_settings]
        rw [if_neg hlen, if_neg hlen]
        split_ifs <;> simp [isDeltaUpdate, logEvt]

/-- Witness for C10: the all-zero settings update leaves every field of the
default settings unchanged and causes no restart. -/
theorem C10_witness :
    ((updateSettings initState ⟨some 0, some 0, some 0⟩ 0).1).settings.deltaThreshold
        = initState.settings.deltaThreshold ∧
      ((updateSettings initState ⟨some 0, some 0, some 0⟩ 0).1).settings.checkInterval
        = initState.settings.checkInterval ∧
      (updateSettings initState ⟨some 0, some 0, some 0⟩ 0).2 = false ∧
      ((updateSettings initState ⟨some 0, some 0, some 0⟩ 0).1).settings.minHedgeSize
        = initState.settings.minHedgeSize := by
  have h := C10_zero_settings_ignored initState ⟨some 0, some 0, some 0⟩ 0
  exact ⟨h.1 rfl, (h.2.1 rfl).1, (h.2.1 rfl).2, h.2.2 rfl⟩

end DeltaBot
